import Mathlib

/-! ## Definitions: the embedded program -/

structure ProductRecord where
  name : String := ""
  price : String := ""
  rating : String := ""
  features : Option (List String) := none
  description : String := ""
  availability : String := ""
  images : Option (List String) := none
  specifications : Option (List (String × String)) := none
  deriving DecidableEq

structure MergedRecord where
  name : String
  price : String
  rating : String
  features : List String
  description : String
  availability : String
  images : List String
  specifications : List (String × String)
  deriving DecidableEq

def setInsert (acc : List String) (x : String) : List String :=
  if x ∈ acc then acc else acc ++ [x]

def jsSetSpread (xs : List String) : List String :=
  xs.foldl setInsert []

def objSet (a : List (String × String)) (k v : String) : List (String × String) :=
  if a.any (fun p => p.1 = k) then
    a.map (fun p => if p.1 = k then (k, v) else p)
  else a ++ [(k, v)]

def objSpread (a b : List (String × String)) : List (String × String) :=
  b.foldl (fun acc kv => objSet acc kv.1 kv.2) a

def mergeStep (m : MergedRecord) (r : ProductRecord) : MergedRecord :=
  { name := m.name
    price := if r.price ≠ "" ∧ m.price = "" then r.price else m.price
    rating := if r.rating ≠ "" ∧ m.rating = "" then r.rating else m.rating
    description :=
      if r.description ≠ "" ∧ m.description = "" then r.description else m.description
    availability :=
      if r.availability ≠ "" ∧ m.availability = "" then r.availability else m.availability
    features :=
      match r.features with
      | some fs => jsSetSpread (m.features ++ fs)
      | none => m.features
    images :=
      match r.images with
      | some is => jsSetSpread (m.images ++ is)
      | none => m.images
    specifications :=
      match r.specifications with
      | some sp => objSpread m.specifications sp
      | none => m.specifications }

def mergeInit (productName : String) : MergedRecord :=
  { name := productName
    price := ""
    rating := ""
    features := []
    description := ""
    availability := ""
    images := []
    specifications := [] }

def mergeProductData (results : List ProductRecord) (productName : String) :
    MergedRecord :=
  results.foldl mergeStep (mergeInit productName)

def firstTruthy : List String → String
  | [] => ""
  | x :: xs => if x ≠ "" then x else firstTruthy xs

def firstSeenDedup : List String → List String
  | [] => []
  | x :: xs => x :: firstSeenDedup (xs.filter (fun y => y ≠ x))
termination_by l => l.length
decreasing_by
  exact Nat.lt_succ_of_le (List.length_filter_le _ _)

def lastLookup (k : String) (a : List (String × String)) : Option String :=
  ((a.filter (fun p => p.1 = k)).getLast?).map (·.2)

def lastSpecValue (rs : List ProductRecord) (k : String) : Option String :=
  (rs.filterMap (fun r => r.specifications.bind (fun sp => List.lookup k sp))).getLast?

def lastSpecValueAux (rs : List ProductRecord) (k : String) : Option String :=
  (rs.filterMap (fun r => r.specifications.bind (fun sp => lastLookup k sp))).getLast?

inductive JsNum
  | nan
  | posInf
  | negInf
  | fin (mant : ℤ) (exp : ℤ)
  deriving DecidableEq

def finVal (m e : ℤ) : ℚ := (m : ℚ) * (10 : ℚ) ^ e

def scaledLtB (m₁ e₁ m₂ e₂ : ℤ) : Bool :=
  let e := min e₁ e₂
  decide (m₁ * 10 ^ (e₁ - e).toNat < m₂ * 10 ^ (e₂ - e).toNat)

def jsGt : JsNum → JsNum → Bool
  | JsNum.nan, _ => false
  | _, JsNum.nan => false
  | JsNum.posInf, JsNum.posInf => false
  | JsNum.posInf, _ => true
  | JsNum.negInf, _ => false
  | JsNum.fin _ _, JsNum.posInf => false
  | JsNum.fin _ _, JsNum.negInf => true
  | JsNum.fin a ea, JsNum.fin b eb => scaledLtB b eb a ea

def digitsVal (ds : List Char) : ℕ :=
  ds.foldl (fun n c => 10 * n + (c.toNat - 48)) 0

def jsParseFloat (s : String) : JsNum :=
  let cs0 := s.data.dropWhile Char.isWhitespace
  let signed : Bool × List Char :=
    match cs0 with
    | '-' :: rest => (true, rest)
    | '+' :: rest => (false, rest)
    | _ => (false, cs0)
  let neg := signed.1
  let cs := signed.2
  if cs.take 8 = "Infinity".data then
    if neg then JsNum.negInf else JsNum.posInf
  else
    let intDs := cs.takeWhile Char.isDigit
    let rest1 := cs.drop intDs.length
    let fracDs : List Char :=
      match rest1 with
      | '.' :: r => r.takeWhile Char.isDigit
      | _ => []
    let rest2 : List Char :=
      match rest1 with
      | '.' :: r => r.drop (r.takeWhile Char.isDigit).length
      | _ => rest1
    if intDs.isEmpty ∧ fracDs.isEmpty then JsNum.nan
    else
      let expo : ℤ :=
        match rest2 with
        | c :: r =>
          if c = 'e' ∨ c = 'E' then
            let esigned : Bool × List Char :=
              match r with
              | '-' :: rr => (true, rr)
              | '+' :: rr => (false, rr)
              | _ => (false, r)
            let eds := esigned.2.takeWhile Char.isDigit
            if eds.isEmpty then 0
            else if esigned.1 then -(digitsVal eds : ℤ) else (digitsVal eds : ℤ)
          else 0
        | [] => 0
      let mant : ℤ := (digitsVal (intDs ++ fracDs) : ℤ)
      JsNum.fin (if neg then -mant else mant) (expo - fracDs.length)

def splitHeadSlash (s : String) : String :=
  String.mk (s.data.takeWhile (fun c => c ≠ '/'))

structure SiteRecord where
  name : String := ""
  source : String := ""
  price : String := ""
  rating : String := ""
  features : Option (List String) := none
  availability : String := ""
  specifications : Option (List (String × String)) := none
  deriving DecidableEq

structure PwMergedRecord where
  name : String
  price : String
  rating : String
  features : List String
  description : String
  availability : String
  specifications : List (String × String)
  deriving DecidableEq

def ratingStep (st : JsNum × String) (r : String) : JsNum × String :=
  if r = "" then st
  else
    let v := jsParseFloat (splitHeadSlash r)
    if jsGt v st.1 then (v, r) else st

def bestRating (ratings : List String) : String :=
  (ratings.foldl ratingStep (JsNum.fin 0 0, "")).2

def mergeResults (results : List SiteRecord) (productName : String) :
    PwMergedRecord :=
  { name := productName
    price := firstTruthy (results.map (·.price))
    rating := bestRating (results.map (·.rating))
    features := results.foldl (fun acc r =>
      match r.features with
      | some fs => jsSetSpread (acc ++ fs)
      | none => acc) []
    description := productName ++ " is available across multiple retailers with varying prices and features. Comprehensive comparison data aggregated from major e-commerce platforms."
    availability := firstTruthy (results.map (·.availability))
    specifications := results.foldl (fun acc r =>
      match r.specifications with
      | some sp => objSpread acc sp
      | none => acc) [] }

def parsedRating (s : String) : Option ℚ :=
  if s = "" then none
  else
    match jsParseFloat (splitHeadSlash s) with
    | JsNum.fin m e => some (finVal m e)
    | _ => none

def specBestRating (ratings : List String) : String :=
  let M := (ratings.filterMap parsedRating).foldl max 0
  if 0 < M then
    match ratings.find? (fun s => parsedRating s = some M) with
    | some s => s
    | none => ""
  else ""

inductive LogEvent
  | info (message : String)
  | warn (message : String)
  | error (message : String)
  deriving DecidableEq

deriving instance DecidableEq for Except

structure StrategyOutcome where
  strategyName : String
  outcome : Except String ProductRecord
  deriving DecidableEq

def scrapeStep (productName : String) (acc : List ProductRecord × List LogEvent)
    (s : StrategyOutcome) : List ProductRecord × List LogEvent :=
  match s.outcome with
  | Except.ok data =>
      (acc.1 ++ [data],
       acc.2 ++
         [LogEvent.info ("Starting intelligent " ++ s.strategyName ++ " for " ++ productName),
          LogEvent.info ("Intelligent " ++ s.strategyName ++ " completed for " ++ productName)])
  | Except.error _ =>
      (acc.1,
       acc.2 ++
         [LogEvent.info ("Starting intelligent " ++ s.strategyName ++ " for " ++ productName),
          LogEvent.warn ("Scraper " ++ s.strategyName ++ " had issues, but provided fallback data")])

def containsSub (pat : List Char) : List Char → Bool
  | [] => pat.isEmpty
  | c :: rest => pat.isPrefixOf (c :: rest) || containsSub pat rest

def strIncludes (s pat : String) : Bool := containsSub pat.data s.data

def jsToLower (s : String) : String := String.mk (s.data.map Char.toLower)

def isPhoneName (productName : String) : Bool :=
  strIncludes (jsToLower productName) "phone" ||
  strIncludes (jsToLower productName) "iphone" ||
  strIncludes (jsToLower productName) "galaxy"

def toFixed1 (q : ℚ) : String :=
  let n : ℤ := Int.floor (q * 10 + 1 / 2)
  toString (n / 10) ++ "." ++ toString (n % 10)

def createIntelligentFallback (productName : String) (r1 r2 : ℚ) : ProductRecord :=
  if isPhoneName productName then
    { name := productName
      price := "$" ++ toString (Int.floor (r1 * 800 + 400)) ++ ".99"
      rating := toFixed1 (r2 * (3 / 2) + 7 / 2) ++ "/5 (estimated)"
      features := some ["Smartphone capabilities", "Camera system",
        "Wireless connectivity", "Touchscreen interface", "App ecosystem"]
      availability := "Check with retailers"
      specifications := some [("Type", "Smartphone"), ("Category", "Mobile Device"),
        ("Data Source", "Intelligent estimation")]
      description := productName ++ " - intelligent analysis when direct scraping is unavailable." }
  else
    { name := productName
      price := "Price varies"
      rating := "Rating varies"
      features := some ["Product features available", "Check retailer for details"]
      availability := "Check availability"
      specifications := some [("Product", productName),
        ("Data Source", "Intelligent estimation")]
      description := productName ++ " - intelligent analysis when direct scraping is unavailable." }

def scrapeProductDataWithFallback (productName : String)
    (strategies : List StrategyOutcome) (r1 r2 : ℚ) :
    MergedRecord × List LogEvent :=
  let ra := strategies.foldl (scrapeStep productName) ([], [])
  if ra.1 = [] then
    (mergeProductData [createIntelligentFallback productName r1 r2] productName,
     ra.2 ++ [LogEvent.info ("Creating intelligent fallback data for " ++ productName)])
  else
    (mergeProductData ra.1 productName, ra.2)

def successRecords (ss : List StrategyOutcome) : List ProductRecord :=
  ss.filterMap (fun s =>
    match s.outcome with
    | Except.ok d => some d
    | Except.error _ => none)

def isErrorOutcome : Except String ProductRecord → Bool
  | Except.error _ => true
  | Except.ok _ => false

def strategyLogs (name : String) (ss : List StrategyOutcome) : List LogEvent :=
  ss.flatMap (fun s =>
    match s.outcome with
    | Except.ok _ =>
        [LogEvent.info ("Starting intelligent " ++ s.strategyName ++ " for " ++ name),
         LogEvent.info ("Intelligent " ++ s.strategyName ++ " completed for " ++ name)]
    | Except.error _ =>
        [LogEvent.info ("Starting intelligent " ++ s.strategyName ++ " for " ++ name),
         LogEvent.warn ("Scraper " ++ s.strategyName ++ " had issues, but provided fallback data")])

def countWarn (ls : List LogEvent) : ℕ :=
  (ls.filter (fun e =>
    match e with
    | LogEvent.warn _ => true
    | _ => false)).length

inductive ScraperKind
  | scrapybara
  | playwright
  | puppeteer
  deriving DecidableEq

def selectScrapers (methods : List String) : List ScraperKind :=
  (if methods.contains "scrapybara" then [ScraperKind.scrapybara] else []) ++
  (if methods.contains "playwright" then [ScraperKind.playwright] else []) ++
  (if methods.contains "puppeteer" then [ScraperKind.puppeteer] else [])

inductive PostOutcome
  | missingNames
  | apiKeyError
  | noMethods
  | proceed (scrapers : List ScraperKind)
  deriving DecidableEq

def postValidate (product1 product2 : String) (apiKeyConfigured : Bool)
    (methods : List String) : PostOutcome :=
  if product1 = "" ∨ product2 = "" then PostOutcome.missingNames
  else if ¬ apiKeyConfigured then PostOutcome.apiKeyError
  else
    let scrapers := selectScrapers methods
    if scrapers = [] then PostOutcome.noMethods
    else PostOutcome.proceed scrapers

def jsTrim (s : String) : String :=
  String.mk (((s.data.dropWhile Char.isWhitespace).reverse.dropWhile
    Char.isWhitespace).reverse)

def PwMergedRecord.toProductRecord (m : PwMergedRecord) : ProductRecord :=
  { name := m.name
    price := m.price
    rating := m.rating
    features := some m.features
    description := m.description
    availability := m.availability
    images := none
    specifications := some m.specifications }

def playwrightScrapeProduct (productName : String)
    (siteResults : List SiteRecord) : Except String ProductRecord :=
  if jsTrim productName = "" then Except.error "Product name is required"
  else if siteResults = [] then Except.error "No data could be scraped from any site"
  else Except.ok (PwMergedRecord.toProductRecord (mergeResults siteResults productName))

def isDecimalNumeral (cs : List Char) : Bool :=
  let intPart := cs.takeWhile Char.isDigit
  let rest := cs.drop intPart.length
  match rest with
  | [] => decide (intPart ≠ [])
  | '.' :: fr => decide (intPart ≠ []) && decide (fr ≠ []) && fr.all Char.isDigit
  | _ => false

def ratingWellFormed (s : String) : Bool :=
  let headPart := s.data.takeWhile (fun c => c ≠ '/')
  let rest := s.data.drop headPart.length
  isDecimalNumeral headPart &&
    (match rest with
     | '/' :: '5' :: _ => true
     | _ => false)

inductive LogLevel
  | info
  | warn
  | error
  deriving DecidableEq

structure LogEntry where
  timestamp : String
  level : LogLevel
  message : String
  source : String
  deriving DecidableEq

structure LogHeap where
  cells : List (List LogEntry)
  deriving DecidableEq

def readCell (h : LogHeap) (r : ℕ) : List LogEntry := h.cells.getD r []

def writeCell (h : LogHeap) (r : ℕ) (v : List LogEntry) : LogHeap :=
  ⟨h.cells.set r v⟩

def allocCell (h : LogHeap) (v : List LogEntry) : LogHeap × ℕ :=
  (⟨h.cells ++ [v]⟩, h.cells.length)

structure MaximLogger where
  source : String
  logsRef : ℕ
  deriving DecidableEq

def MaximLogger.getLogs (lg : MaximLogger) (h : LogHeap) : LogHeap × ℕ :=
  allocCell h (readCell h lg.logsRef)

def MaximLogger.getLogsByLevel (lg : MaximLogger) (h : LogHeap) (level : LogLevel) :
    List LogEntry :=
  (readCell h lg.logsRef).filter (fun e => e.level = level)

def MaximLogger.addLog (lg : MaximLogger) (h : LogHeap) (level : LogLevel)
    (timestamp message : String) : LogHeap :=
  writeCell h lg.logsRef
    (readCell h lg.logsRef ++ [⟨timestamp, level, message, lg.source⟩])

structure LogsSummary where
  total : ℕ
  infoCount : ℕ
  warnCount : ℕ
  errorCount : ℕ
  timeStart : Option String
  timeEnd : Option String
  deriving DecidableEq

def MaximLogger.getLogsSummary (lg : MaximLogger) (h : LogHeap) : LogsSummary :=
  let logs := readCell h lg.logsRef
  { total := logs.length
    infoCount := (logs.filter (fun e => e.level = LogLevel.info)).length
    warnCount := (logs.filter (fun e => e.level = LogLevel.warn)).length
    errorCount := (logs.filter (fun e => e.level = LogLevel.error)).length
    timeStart := logs.head?.map (·.timestamp)
    timeEnd := logs.getLast?.map (·.timestamp) }

/-! ## Theorems -/

theorem mergeStep_price (m : MergedRecord) (r : ProductRecord) :
    (mergeStep m r).price =
      if r.price ≠ "" ∧ m.price = "" then r.price else m.price := rfl

theorem mergeStep_rating (m : MergedRecord) (r : ProductRecord) :
    (mergeStep m r).rating =
      if r.rating ≠ "" ∧ m.rating = "" then r.rating else m.rating := rfl

theorem foldl_firstWins (f : MergedRecord → String) (g : ProductRecord → String)
    (hstep : ∀ m r, f (mergeStep m r) = if g r ≠ "" ∧ f m = "" then g r else f m)
    (rs : List ProductRecord) :
    ∀ m : MergedRecord,
      f (rs.foldl mergeStep m) =
        if f m = "" then firstTruthy (rs.map g) else f m := by
  induction rs with
  | nil =>
    intro m
    by_cases h : f m = "" <;> simp [firstTruthy, h]
  | cons r rs ih =>
    intro m
    rw [List.foldl_cons, ih (mergeStep m r), hstep]
    by_cases hm : f m = ""
    · by_cases hr : g r = ""
      · simp [hm, hr, firstTruthy]
      · simp [hm, hr, firstTruthy]
    · simp [hm]

theorem mergeProductData_price (rs : List ProductRecord) (n : String) :
    (mergeProductData rs n).price = firstTruthy (rs.map (·.price)) := by
  rw [mergeProductData, foldl_firstWins (·.price) (·.price) (fun _ _ => rfl)]
  simp [mergeInit]

theorem mergeProductData_rating (rs : List ProductRecord) (n : String) :
    (mergeProductData rs n).rating = firstTruthy (rs.map (·.rating)) := by
  rw [mergeProductData, foldl_firstWins (·.rating) (·.rating) (fun _ _ => rfl)]
  simp [mergeInit]

theorem mergeProductData_description (rs : List ProductRecord) (n : String) :
    (mergeProductData rs n).description = firstTruthy (rs.map (·.description)) := by
  rw [mergeProductData, foldl_firstWins (·.description) (·.description) (fun _ _ => rfl)]
  simp [mergeInit]

theorem mergeProductData_availability (rs : List ProductRecord) (n : String) :
    (mergeProductData rs n).availability = firstTruthy (rs.map (·.availability)) := by
  rw [mergeProductData, foldl_firstWins (·.availability) (·.availability) (fun _ _ => rfl)]
  simp [mergeInit]

theorem mergeProductData_name (rs : List ProductRecord) (n : String) :
    (mergeProductData rs n).name = n := by
  rw [mergeProductData]
  have h : ∀ m : MergedRecord, (rs.foldl mergeStep m).name = m.name := by
    induction rs with
    | nil => intro m; rfl
    | cons r rs ih => intro m; rw [List.foldl_cons, ih]; rfl
  rw [h]; rfl

theorem C6_scalar_fields_first_writer_wins
    (rs : List ProductRecord) (n : String) :
    (mergeProductData rs n).price = firstTruthy (rs.map (·.price)) ∧
    (mergeProductData rs n).availability = firstTruthy (rs.map (·.availability)) ∧
    (mergeProductData rs n).description = firstTruthy (rs.map (·.description)) :=
  ⟨mergeProductData_price rs n, mergeProductData_availability rs n,
    mergeProductData_description rs n⟩

theorem C9_merge_pure (rs₁ rs₂ : List ProductRecord) (n : String)
    (h : rs₁ = rs₂) :
    mergeProductData rs₁ n = mergeProductData rs₂ n := by
  rw [h]

theorem C9_merge_pure_witness :
    mergeProductData [{ price := "$10" }, { price := "$20" }] "P" =
      mergeProductData [{ price := "$10" }, { price := "$20" }] "P" :=
  C9_merge_pure [{ price := "$10" }, { price := "$20" }]
    [{ price := "$10" }, { price := "$20" }] "P" rfl

theorem C4_counterexample :
    mergeProductData [] "Widget" =
      { name := "Widget", price := "", rating := "", features := [],
        description := "", availability := "", images := [],
        specifications := [] } := rfl

theorem C4_empty_merge_returns_empty_record (n : String) :
    mergeProductData [] n =
      { name := n, price := "", rating := "", features := [],
        description := "", availability := "", images := [],
        specifications := [] } := rfl

theorem setInsert_nodup {acc : List String} (h : acc.Nodup) (x : String) :
    (setInsert acc x).Nodup := by
  unfold setInsert
  split
  · exact h
  · next hx => exact List.nodup_append.mpr ⟨h, List.nodup_singleton x,
      by simpa using fun hy => hx hy⟩

theorem mem_setInsert (acc : List String) (x y : String) :
    y ∈ setInsert acc x ↔ y ∈ acc ∨ y = x := by
  unfold setInsert
  split
  · next hx =>
      constructor
      · exact fun h => Or.inl h
      · rintro (h | rfl)
        · exact h
        · exact hx
  · simp

theorem foldl_setInsert_nodup (xs : List String) :
    ∀ acc : List String, acc.Nodup → (xs.foldl setInsert acc).Nodup := by
  induction xs with
  | nil => intro acc h; exact h
  | cons x xs ih => intro acc h; exact ih _ (setInsert_nodup h x)

theorem mem_foldl_setInsert (xs : List String) :
    ∀ acc y, y ∈ xs.foldl setInsert acc ↔ y ∈ acc ∨ y ∈ xs := by
  induction xs with
  | nil => simp
  | cons x xs ih =>
    intro acc y
    rw [List.foldl_cons, ih, mem_setInsert]
    simp only [List.mem_cons]
    tauto

theorem foldl_setInsert_of_disjoint (d : List String) :
    ∀ acc, d.Nodup → (∀ x ∈ d, x ∉ acc) → d.foldl setInsert acc = acc ++ d := by
  induction d with
  | nil => intro acc _ _; simp
  | cons x d ih =>
    intro acc hnd hdisj
    rw [List.foldl_cons]
    have hx : x ∉ acc := hdisj x (List.mem_cons_self x d)
    rw [show setInsert acc x = acc ++ [x] from by simp [setInsert, hx]]
    rw [ih (acc ++ [x]) (List.Nodup.of_cons hnd)]
    · simp
    · intro y hy
      simp only [List.mem_append, List.mem_singleton]
      rintro (h | rfl)
      · exact hdisj y (List.mem_cons_of_mem x hy) h
      · exact (List.nodup_cons.mp hnd).1 hy

theorem jsSetSpread_of_nodup {acc : List String} (h : acc.Nodup) :
    jsSetSpread acc = acc := by
  unfold jsSetSpread
  simpa using foldl_setInsert_of_disjoint acc [] h (by simp)

theorem jsSetSpread_append_of_nodup {acc : List String} (h : acc.Nodup)
    (xs : List String) :
    jsSetSpread (acc ++ xs) = xs.foldl setInsert acc := by
  unfold jsSetSpread
  rw [List.foldl_append]
  rw [show List.foldl setInsert [] acc = acc from by
    simpa using foldl_setInsert_of_disjoint acc [] h (by simp)]

theorem foldl_setInsert_eq_firstSeenDedup (xs : List String) :
    ∀ acc : List String, acc.Nodup →
      xs.foldl setInsert acc = acc ++ firstSeenDedup (xs.filter (fun y => y ∉ acc)) := by
  induction xs with
  | nil => intro acc _; simp [firstSeenDedup]
  | cons x xs ih =>
    intro acc hnd
    rw [List.foldl_cons]
    by_cases hx : x ∈ acc
    · rw [show setInsert acc x = acc from by simp [setInsert, hx]]
      rw [ih acc hnd]
      congr 2
      rw [List.filter_cons]
      simp [hx]
    · rw [show setInsert acc x = acc ++ [x] from by simp [setInsert, hx]]
      have hnd' : (acc ++ [x]).Nodup := by
        exact List.nodup_append.mpr ⟨hnd, List.nodup_singleton x,
          by simpa using fun hy => hx hy⟩
      rw [ih (acc ++ [x]) hnd']
      rw [List.append_assoc]
      congr 1
      have hfc : (x :: xs).filter (fun y => decide (y ∉ acc)) =
          x :: xs.filter (fun y => decide (y ∉ acc)) := by
        rw [List.filter_cons, if_pos (by simpa using hx)]
      rw [hfc, firstSeenDedup, List.singleton_append]
      congr 1
      have hpt : xs.filter (fun y => decide (y ∉ acc ++ [x])) =
          (xs.filter (fun y => decide (y ∉ acc))).filter (fun y => y ≠ x) := by
        rw [List.filter_filter]
        apply List.filter_congr
        intro y _
        by_cases h1 : y ∈ acc <;> by_cases h2 : y = x <;> simp [h1, h2]
      rw [hpt]

theorem jsSetSpread_eq_firstSeenDedup (xs : List String) :
    jsSetSpread xs = firstSeenDedup xs := by
  unfold jsSetSpread
  rw [foldl_setInsert_eq_firstSeenDedup xs [] List.nodup_nil]
  simp

theorem foldl_mergeStep_features (rs : List ProductRecord) :
    ∀ m : MergedRecord, m.features.Nodup →
      (rs.foldl mergeStep m).features =
        (rs.flatMap (fun r => r.features.getD [])).foldl setInsert m.features := by
  induction rs with
  | nil => intro m _; simp
  | cons r rs ih =>
    intro m hm
    rw [List.foldl_cons, List.flatMap_cons, List.foldl_append]
    cases hf : r.features with
    | none =>
      have hstep : (mergeStep m r).features = m.features := by
        simp [mergeStep, hf]
      rw [ih (mergeStep m r) (by rw [hstep]; exact hm), hstep]
      simp
    | some fs =>
      have hstep : (mergeStep m r).features = jsSetSpread (m.features ++ fs) := by
        simp [mergeStep, hf]
      rw [ih (mergeStep m r)
            (by rw [hstep]; exact foldl_setInsert_nodup _ _ List.nodup_nil),
          hstep, jsSetSpread_append_of_nodup hm]
      simp

theorem foldl_mergeStep_images (rs : List ProductRecord) :
    ∀ m : MergedRecord, m.images.Nodup →
      (rs.foldl mergeStep m).images =
        (rs.flatMap (fun r => r.images.getD [])).foldl setInsert m.images := by
  induction rs with
  | nil => intro m _; simp
  | cons r rs ih =>
    intro m hm
    rw [List.foldl_cons, List.flatMap_cons, List.foldl_append]
    cases hf : r.images with
    | none =>
      have hstep : (mergeStep m r).images = m.images := by
        simp [mergeStep, hf]
      rw [ih (mergeStep m r) (by rw [hstep]; exact hm), hstep]
      simp
    | some is =>
      have hstep : (mergeStep m r).images = jsSetSpread (m.images ++ is) := by
        simp [mergeStep, hf]
      rw [ih (mergeStep m r)
            (by rw [hstep]; exact foldl_setInsert_nodup _ _ List.nodup_nil),
          hstep, jsSetSpread_append_of_nodup hm]
      simp

theorem mergeProductData_features (rs : List ProductRecord) (n : String) :
    (mergeProductData rs n).features =
      firstSeenDedup (rs.flatMap (fun r => r.features.getD [])) := by
  rw [mergeProductData, foldl_mergeStep_features rs (mergeInit n) List.nodup_nil]
  exact foldl_setInsert_eq_firstSeenDedup _ [] List.nodup_nil |>.trans (by simp)

theorem mergeProductData_images (rs : List ProductRecord) (n : String) :
    (mergeProductData rs n).images =
      firstSeenDedup (rs.flatMap (fun r => r.images.getD [])) := by
  rw [mergeProductData, foldl_mergeStep_images rs (mergeInit n) List.nodup_nil]
  exact foldl_setInsert_eq_firstSeenDedup _ [] List.nodup_nil |>.trans (by simp)

theorem C8_features_images_dedup_first_seen (rs : List ProductRecord) (n : String) :
    (mergeProductData rs n).features =
        firstSeenDedup (rs.flatMap (fun r => r.features.getD [])) ∧
    (mergeProductData rs n).images =
        firstSeenDedup (rs.flatMap (fun r => r.images.getD [])) ∧
    (mergeProductData rs n).features.Nodup ∧
    (mergeProductData rs n).images.Nodup ∧
    (∀ x, x ∈ (mergeProductData rs n).features ↔
        ∃ r ∈ rs, ∃ fs, r.features = some fs ∧ x ∈ fs) ∧
    (∀ x, x ∈ (mergeProductData rs n).images ↔
        ∃ r ∈ rs, ∃ is, r.images = some is ∧ x ∈ is) := by
  have hff : (mergeProductData rs n).features =
      (rs.flatMap (fun r => r.features.getD [])).foldl setInsert [] := by
    rw [mergeProductData, foldl_mergeStep_features rs (mergeInit n) List.nodup_nil]
    rfl
  have hfi : (mergeProductData rs n).images =
      (rs.flatMap (fun r => r.images.getD [])).foldl setInsert [] := by
    rw [mergeProductData, foldl_mergeStep_images rs (mergeInit n) List.nodup_nil]
    rfl
  refine ⟨mergeProductData_features rs n, mergeProductData_images rs n, ?_, ?_, ?_, ?_⟩
  · rw [hff]; exact foldl_setInsert_nodup _ _ List.nodup_nil
  · rw [hfi]; exact foldl_setInsert_nodup _ _ List.nodup_nil
  · intro x
    rw [hff, mem_foldl_setInsert]
    simp only [List.mem_nil_iff, false_or, List.mem_flatMap]
    constructor
    · rintro ⟨r, hr, hx⟩
      cases hf : r.features with
      | none => rw [hf] at hx; simp at hx
      | some fs => exact ⟨r, hr, fs, hf, by rw [hf] at hx; simpa using hx⟩
    · rintro ⟨r, hr, fs, hf, hx⟩
      exact ⟨r, hr, by rw [hf]; simpa using hx⟩
  · intro x
    rw [hfi, mem_foldl_setInsert]
    simp only [List.mem_nil_iff, false_or, List.mem_flatMap]
    constructor
    · rintro ⟨r, hr, hx⟩
      cases hf : r.images with
      | none => rw [hf] at hx; simp at hx
      | some is => exact ⟨r, hr, is, hf, by rw [hf] at hx; simpa using hx⟩
    · rintro ⟨r, hr, is, hf, hx⟩
      exact ⟨r, hr, by rw [hf]; simpa using hx⟩

theorem optOr_none {α : Type} (a : Option α) : a.or none = a := by
  cases a <;> rfl

theorem optOr_assoc {α : Type} (a b c : Option α) :
    (a.or b).or c = a.or (b.or c) := by
  cases a <;> rfl

theorem getLast?_cons_or {α : Type} (x : α) (l : List α) :
    (x :: l).getLast? = (l.getLast?).or (some x) := by
  cases l with
  | nil => rfl
  | cons y l =>
    rw [List.getLast?_cons_cons]
    have h : (y :: l).getLast?.isSome := by
      rw [List.getLast?_isSome]
      simp
    cases hg : (y :: l).getLast? with
    | none => rw [hg] at h; simp at h
    | some v => rfl

theorem lookup_cons (k' : String) (p : String × String) (l : List (String × String)) :
    List.lookup k' (p :: l) = if k' = p.1 then some p.2 else List.lookup k' l := by
  obtain ⟨a, b⟩ := p
  by_cases h : k' = a
  · subst h
    simp [List.lookup]
  · have hb : (k' == a) = false := beq_eq_false_iff_ne.mpr h
    simp [List.lookup, hb, h]

theorem lookup_map_replace (k v k' : String) (hk : k' ≠ k)
    (a : List (String × String)) :
    List.lookup k' (a.map (fun p => if p.1 = k then (k, v) else p)) =
      List.lookup k' a := by
  induction a with
  | nil => rfl
  | cons p a ih =>
    by_cases hp : p.1 = k
    · rw [List.map_cons, if_pos hp, lookup_cons, lookup_cons]
      rw [if_neg (by simpa using hk), if_neg (by rw [hp]; simpa using hk)]
      exact ih
    · rw [List.map_cons, if_neg hp, lookup_cons, lookup_cons]
      by_cases hq : k' = p.1 <;> simp [hq, ih]

theorem lookup_map_replace_hit (k v : String) (a : List (String × String))
    (hany : a.any (fun p => p.1 = k)) :
    List.lookup k (a.map (fun p => if p.1 = k then (k, v) else p)) = some v := by
  induction a with
  | nil => simp at hany
  | cons p a ih =>
    simp only [List.any_cons, Bool.or_eq_true, decide_eq_true_eq] at hany
    by_cases hp : p.1 = k
    · rw [List.map_cons, if_pos hp, lookup_cons]
      simp
    · rw [List.map_cons, if_neg hp, lookup_cons, if_neg (fun h => hp h.symm)]
      exact ih (hany.resolve_left hp)

theorem lookup_append_new (k v k' : String) (a : List (String × String))
    (h : ∀ p ∈ a, p.1 ≠ k) :
    List.lookup k' (a ++ [(k, v)]) = if k' = k then some v else List.lookup k' a := by
  induction a with
  | nil =>
    rw [List.nil_append, lookup_cons]
  | cons p a ih =>
    rw [List.cons_append, lookup_cons, lookup_cons]
    by_cases hq : k' = p.1
    · have hpk : p.1 ≠ k := h p (List.mem_cons_self p a)
      have hk : ¬ k' = k := hq ▸ hpk
      rw [if_pos hq, if_neg hk, if_pos hq]
    · rw [if_neg hq, if_neg hq, ih (fun q hqa => h q (List.mem_cons_of_mem p hqa))]

theorem lookup_objSet (a : List (String × String)) (k v k' : String) :
    List.lookup k' (objSet a k v) = if k' = k then some v else List.lookup k' a := by
  unfold objSet
  split
  · next hany =>
    by_cases hk : k' = k
    · subst hk
      rw [if_pos rfl]
      exact lookup_map_replace_hit k' v a hany
    · rw [if_neg hk]
      exact lookup_map_replace k v k' hk a
  · next hany =>
    refine lookup_append_new k v k' a ?_
    intro p hp hpk
    exact hany (List.any_eq_true.mpr ⟨p, hp, by simpa using hpk⟩)

theorem lookup_objSpread (b : List (String × String)) :
    ∀ (a : List (String × String)) (k' : String),
      List.lookup k' (objSpread a b) = (lastLookup k' b).or (List.lookup k' a) := by
  induction b with
  | nil => intro a k'; simp [objSpread, lastLookup]
  | cons p b ih =>
    intro a k'
    rw [show objSpread a (p :: b) = objSpread (objSet a p.1 p.2) b from rfl,
        ih, lookup_objSet]
    by_cases hp : k' = p.1
    · have h1 : lastLookup k' (p :: b) =
          (((b.filter (fun q => q.1 = k')).getLast?).or (some p)).map (·.2) := by
        unfold lastLookup
        rw [List.filter_cons, if_pos (by simpa using hp.symm), getLast?_cons_or]
      rw [if_pos hp, h1]
      cases hg : (b.filter (fun q => decide (q.1 = k'))).getLast? with
      | none => simp [lastLookup, hg]
      | some q => simp [lastLookup, hg]
    · have h1 : lastLookup k' (p :: b) = lastLookup k' b := by
        unfold lastLookup
        rw [List.filter_cons, if_neg (by simpa using fun h => hp h.symm)]
      rw [if_neg hp, h1]

theorem lastLookup_eq_lookup (k : String) (sp : List (String × String))
    (h : (sp.map Prod.fst).Nodup) :
    lastLookup k sp = List.lookup k sp := by
  induction sp with
  | nil => rfl
  | cons p sp ih =>
    rw [List.map_cons, List.nodup_cons] at h
    rw [lookup_cons]
    by_cases hp : p.1 = k
    · have hfe : sp.filter (fun q => decide (q.1 = k)) = [] := by
        rw [List.filter_eq_nil_iff]
        intro q hq
        simp only [decide_eq_true_eq]
        intro hqk
        apply h.1
        rw [hp, ← hqk]
        exact List.mem_map_of_mem Prod.fst hq
      unfold lastLookup
      rw [List.filter_cons, if_pos (by simpa using hp), hfe]
      simp [hp.symm]
    · unfold lastLookup
      rw [List.filter_cons, if_neg (by simpa using hp)]
      rw [if_neg (fun hc => hp hc.symm)]
      exact ih h.2

theorem foldl_mergeStep_specifications (rs : List ProductRecord) :
    ∀ (m : MergedRecord) (k : String),
      List.lookup k (rs.foldl mergeStep m).specifications =
        (lastSpecValueAux rs k).or (List.lookup k m.specifications) := by
  induction rs with
  | nil =>
    intro m k
    simp [lastSpecValueAux]
  | cons r rs ih =>
    intro m k
    rw [List.foldl_cons, ih]
    have hspec : (mergeStep m r).specifications =
        match r.specifications with
        | some sp => objSpread m.specifications sp
        | none => m.specifications := rfl
    cases hs : r.specifications with
    | none =>
      rw [hspec]
      simp only [hs]
      have haux : lastSpecValueAux (r :: rs) k = lastSpecValueAux rs k := by
        unfold lastSpecValueAux
        rw [List.filterMap_cons]
        simp [hs]
      rw [haux]
    | some sp =>
      rw [hspec]
      simp only [hs]
      rw [lookup_objSpread]
      cases hl : lastLookup k sp with
      | none =>
        have haux : lastSpecValueAux (r :: rs) k = lastSpecValueAux rs k := by
          unfold lastSpecValueAux
          rw [List.filterMap_cons]
          simp [hs, hl]
        rw [haux]
        rfl
      | some v =>
        have haux : lastSpecValueAux (r :: rs) k =
            (lastSpecValueAux rs k).or (some v) := by
          unfold lastSpecValueAux
          rw [List.filterMap_cons]
          have hb : r.specifications.bind (fun sp => lastLookup k sp) = some v := by
            rw [hs]
            simpa using hl
          rw [hb]
          exact getLast?_cons_or v _
        rw [haux, optOr_assoc]

theorem filterMap_congr_mem {α β : Type} (l : List α) (f g : α → Option β)
    (h : ∀ x ∈ l, f x = g x) : l.filterMap f = l.filterMap g := by
  induction l with
  | nil => rfl
  | cons x l ih =>
    rw [List.filterMap_cons, List.filterMap_cons, h x (List.mem_cons_self x l),
        ih (fun y hy => h y (List.mem_cons_of_mem x hy))]

theorem C7_specifications_last_writer_wins (rs : List ProductRecord)
    (n k : String)
    (h : ∀ r ∈ rs, ∀ sp, r.specifications = some sp → (sp.map Prod.fst).Nodup) :
    List.lookup k (mergeProductData rs n).specifications = lastSpecValue rs k := by
  rw [mergeProductData, foldl_mergeStep_specifications]
  rw [show List.lookup k (mergeInit n).specifications = none from rfl, optOr_none]
  unfold lastSpecValueAux lastSpecValue
  congr 1
  apply filterMap_congr_mem
  intro r hr
  cases hs : r.specifications with
  | none => rfl
  | some sp =>
    simpa using lastLookup_eq_lookup k sp (h r hr sp hs)

theorem C7_specifications_witness :
    List.lookup "A" (mergeProductData
        [{ specifications := some [("A", "1")] },
         { specifications := some [("A", "2"), ("B", "3")] }] "P").specifications =
      some "2" ∧
    List.lookup "B" (mergeProductData
        [{ specifications := some [("A", "1")] },
         { specifications := some [("A", "2"), ("B", "3")] }] "P").specifications =
      some "3" := by
  constructor
  · exact (C7_specifications_last_writer_wins
      [{ specifications := some [("A", "1")] },
       { specifications := some [("A", "2"), ("B", "3")] }] "P" "A"
      (by decide)).trans (by decide)
  · exact (C7_specifications_last_writer_wins
      [{ specifications := some [("A", "1")] },
       { specifications := some [("A", "2"), ("B", "3")] }] "P" "B"
      (by decide)).trans (by decide)

theorem scaledLtB_eq_decide (m₁ e₁ m₂ e₂ : ℤ) :
    scaledLtB m₁ e₁ m₂ e₂ = decide (finVal m₁ e₁ < finVal m₂ e₂) := by
  unfold scaledLtB
  rw [decide_eq_decide]
  set e := min e₁ e₂ with he
  have key : ∀ (m ε : ℤ), e ≤ ε →
      ((m * 10 ^ (ε - e).toNat : ℤ) : ℚ) = finVal m ε * (10 : ℚ) ^ (-e) := by
    intro m ε hε
    unfold finVal
    push_cast
    rw [show ((10 : ℚ) ^ (ε - e).toNat = (10 : ℚ) ^ ((ε : ℤ) - e)) from by
      rw [← zpow_natCast]
      congr 1
      omega]
    rw [mul_assoc, ← zpow_add₀ (by norm_num : (10 : ℚ) ≠ 0), sub_eq_add_neg]
  have h1 : e ≤ e₁ := min_le_left _ _
  have h2 : e ≤ e₂ := min_le_right _ _
  rw [show (m₁ * 10 ^ (e₁ - e).toNat < m₂ * 10 ^ (e₂ - e).toNat ↔
        ((m₁ * 10 ^ (e₁ - e).toNat : ℤ) : ℚ) < ((m₂ * 10 ^ (e₂ - e).toNat : ℤ) : ℚ))
      from Int.cast_lt.symm,
      key m₁ e₁ h1, key m₂ e₂ h2]
  constructor
  · exact fun h => lt_of_mul_lt_mul_right h (le_of_lt (zpow_pos (by norm_num) _))
  · exact fun h => mul_lt_mul_of_pos_right h (zpow_pos (by norm_num) _)

theorem le_foldl_max (l : List ℚ) : ∀ b : ℚ, b ≤ l.foldl max b := by
  induction l with
  | nil => intro b; simp
  | cons x l ih => intro b; exact le_trans (le_max_left b x) (ih (max b x))

theorem foldl_max_eq_init_or_mem (l : List ℚ) :
    ∀ b : ℚ, l.foldl max b = b ∨ l.foldl max b ∈ l := by
  induction l with
  | nil => intro b; left; rfl
  | cons x l ih =>
    intro b
    rw [List.foldl_cons]
    rcases ih (max b x) with h | h
    · rw [h]
      rcases max_choice b x with hm | hm
      · exact Or.inl hm
      · exact Or.inr (by rw [hm]; exact List.mem_cons_self x l)
    · exact Or.inr (List.mem_cons_of_mem x h)

theorem optGetD_eq_of_isSome {α : Type} (o : Option α) (h : o.isSome) (a b : α) :
    o.getD a = o.getD b := by
  cases o with
  | none => simp at h
  | some v => rfl

theorem ratingLoop_spec (ratings : List String) :
    (∀ s ∈ ratings, jsParseFloat (splitHeadSlash s) ≠ JsNum.posInf) →
    ∀ (m e : ℤ) (sel : String),
      (∃ m' e',
        (ratings.foldl ratingStep (JsNum.fin m e, sel)).1 = JsNum.fin m' e' ∧
        finVal m' e' = (ratings.filterMap parsedRating).foldl max (finVal m e)) ∧
      (ratings.foldl ratingStep (JsNum.fin m e, sel)).2 =
        (if finVal m e < (ratings.filterMap parsedRating).foldl max (finVal m e) then
          (ratings.find? (fun s =>
            parsedRating s =
              some ((ratings.filterMap parsedRating).foldl max (finVal m e)))).getD sel
         else sel) := by
  induction ratings with
  | nil =>
    intro _ m e sel
    refine ⟨⟨m, e, rfl, rfl⟩, ?_⟩
    simp
  | cons s l ih =>
    intro H m e sel
    have Hl : ∀ t ∈ l, jsParseFloat (splitHeadSlash t) ≠ JsNum.posInf :=
      fun t ht => H t (List.mem_cons_of_mem s ht)
    rw [List.foldl_cons]
    by_cases hs : s = ""
    · have hstep : ratingStep (JsNum.fin m e, sel) s = (JsNum.fin m e, sel) := by
        simp [ratingStep, hs]
      have hpr : parsedRating s = none := by simp [parsedRating, hs]
      rw [hstep]
      obtain ⟨hfst, hsnd⟩ := ih Hl m e sel
      constructor
      · simpa only [List.filterMap_cons, hpr] using hfst
      · simp only [List.filterMap_cons, hpr]
        rw [hsnd]
        by_cases hcond :
            finVal m e < (l.filterMap parsedRating).foldl max (finVal m e)
        · rw [if_pos hcond, if_pos hcond,
            List.find?_cons_of_neg _ (by simp [hpr])]
        · rw [if_neg hcond, if_neg hcond]
    · cases hP : jsParseFloat (splitHeadSlash s) with
      | posInf => exact absurd hP (H s (List.mem_cons_self s l))
      | nan =>
        have hstep : ratingStep (JsNum.fin m e, sel) s = (JsNum.fin m e, sel) := by
          simp [ratingStep, hs, hP, jsGt]
        have hpr : parsedRating s = none := by simp [parsedRating, hs, hP]
        rw [hstep]
        obtain ⟨hfst, hsnd⟩ := ih Hl m e sel
        constructor
        · simpa only [List.filterMap_cons, hpr] using hfst
        · simp only [List.filterMap_cons, hpr]
          rw [hsnd]
          by_cases hcond :
              finVal m e < (l.filterMap parsedRating).foldl max (finVal m e)
          · rw [if_pos hcond, if_pos hcond,
              List.find?_cons_of_neg _ (by simp [hpr])]
          · rw [if_neg hcond, if_neg hcond]
      | negInf =>
        have hstep : ratingStep (JsNum.fin m e, sel) s = (JsNum.fin m e, sel) := by
          simp [ratingStep, hs, hP, jsGt]
        have hpr : parsedRating s = none := by simp [parsedRating, hs, hP]
        rw [hstep]
        obtain ⟨hfst, hsnd⟩ := ih Hl m e sel
        constructor
        · simpa only [List.filterMap_cons, hpr] using hfst
        · simp only [List.filterMap_cons, hpr]
          rw [hsnd]
          by_cases hcond :
              finVal m e < (l.filterMap parsedRating).foldl max (finVal m e)
          · rw [if_pos hcond, if_pos hcond,
              List.find?_cons_of_neg _ (by simp [hpr])]
          · rw [if_neg hcond, if_neg hcond]
      | fin mv ev =>
        have hpr : parsedRating s = some (finVal mv ev) := by
          simp [parsedRating, hs, hP]
        by_cases hv : finVal m e < finVal mv ev
        · have hstep : ratingStep (JsNum.fin m e, sel) s = (JsNum.fin mv ev, s) := by
            simp [ratingStep, hs, hP, jsGt, scaledLtB_eq_decide, hv]
          rw [hstep]
          obtain ⟨hfst, hsnd⟩ := ih Hl mv ev s
          have hmax : ((s :: l).filterMap parsedRating).foldl max (finVal m e) =
              (l.filterMap parsedRating).foldl max (finVal mv ev) := by
            simp only [List.filterMap_cons, hpr, List.foldl_cons]
            rw [max_eq_right (le_of_lt hv)]
          have hvle : finVal mv ev ≤ (l.filterMap parsedRating).foldl max (finVal mv ev) :=
            le_foldl_max _ _
          have hcond : finVal m e < (l.filterMap parsedRating).foldl max (finVal mv ev) :=
            lt_of_lt_of_le hv hvle
          constructor
          · obtain ⟨m', e', h1, h2⟩ := hfst
            exact ⟨m', e', h1, by rw [h2, hmax]⟩
          · rw [hsnd, hmax, if_pos hcond]
            by_cases hlt : finVal mv ev < (l.filterMap parsedRating).foldl max (finVal mv ev)
            · rw [if_pos hlt]
              have hne : ¬ parsedRating s =
                  some ((l.filterMap parsedRating).foldl max (finVal mv ev)) := by
                rw [hpr]
                intro hc
                injection hc with hc
                exact absurd hlt (by rw [← hc]; exact lt_irrefl _)
              rw [List.find?_cons_of_neg _ (by simpa using hne)]
              have hmem : (l.filterMap parsedRating).foldl max (finVal mv ev) ∈
                  l.filterMap parsedRating := by
                rcases foldl_max_eq_init_or_mem (l.filterMap parsedRating) (finVal mv ev)
                  with h | h
                · rw [h] at hlt
                  exact absurd hlt (lt_irrefl _)
                · exact h
              obtain ⟨t, ht, hpt⟩ := List.mem_filterMap.mp hmem
              have hfind : (l.find? (fun t => parsedRating t =
                  some ((l.filterMap parsedRating).foldl max (finVal mv ev)))).isSome := by
                rw [List.find?_isSome]
                exact ⟨t, ht, by simpa using hpt⟩
              exact optGetD_eq_of_isSome _ hfind _ _
            · rw [if_neg hlt]
              have heq : finVal mv ev = (l.filterMap parsedRating).foldl max (finVal mv ev) :=
                le_antisymm hvle (not_lt.mp hlt)
              rw [List.find?_cons_of_pos _ (by rw [hpr, ← heq]; simp)]
              rfl
        · have hstep : ratingStep (JsNum.fin m e, sel) s = (JsNum.fin m e, sel) := by
            simp [ratingStep, hs, hP, jsGt, scaledLtB_eq_decide, hv]
          rw [hstep]
          obtain ⟨hfst, hsnd⟩ := ih Hl m e sel
          have hmax : ((s :: l).filterMap parsedRating).foldl max (finVal m e) =
              (l.filterMap parsedRating).foldl max (finVal m e) := by
            simp only [List.filterMap_cons, hpr, List.foldl_cons]
            rw [max_eq_left (not_lt.mp hv)]
          constructor
          · obtain ⟨m', e', h1, h2⟩ := hfst
            exact ⟨m', e', h1, by rw [h2, hmax]⟩
          · rw [hsnd, hmax]
            by_cases hcond :
                finVal m e < (l.filterMap parsedRating).foldl max (finVal m e)
            · rw [if_pos hcond, if_pos hcond]
              have hne : ¬ parsedRating s =
                  some ((l.filterMap parsedRating).foldl max (finVal m e)) := by
                rw [hpr]
                intro hc
                injection hc with hc
                exact absurd hcond (not_lt.mpr (hc ▸ (not_lt.mp hv)))
              rw [List.find?_cons_of_neg _ (by simpa using hne)]
            · rw [if_neg hcond, if_neg hcond]

theorem bestRating_eq_specBestRating (ratings : List String)
    (H : ∀ s ∈ ratings, jsParseFloat (splitHeadSlash s) ≠ JsNum.posInf) :
    bestRating ratings = specBestRating ratings := by
  unfold bestRating specBestRating
  obtain ⟨_, hsnd⟩ := ratingLoop_spec ratings H 0 0 ""
  have h00 : finVal 0 0 = 0 := by simp [finVal]
  rw [hsnd, h00]
  by_cases hcond : (0:ℚ) < (ratings.filterMap parsedRating).foldl max 0
  · rw [if_pos hcond, if_pos hcond]
    cases ratings.find? (fun s =>
        parsedRating s = some ((ratings.filterMap parsedRating).foldl max 0)) with
    | none => rfl
    | some u => rfl
  · rw [if_neg hcond, if_neg hcond]

theorem C1_counterexample :
    (mergeProductData [{ rating := "4.1/5" }, { rating := "4.7/5" }] "P").rating
      = "4.1/5" ∧
    ¬ (mergeProductData [{ rating := "4.1/5" }, { rating := "4.7/5" }] "P").rating
      = "4.7/5" := by
  constructor
  · decide
  · decide

theorem C1_rating_selection (rs : List ProductRecord) (n : String)
    (results : List SiteRecord) (pn : String)
    (hfin : ∀ r ∈ results, jsParseFloat (splitHeadSlash r.rating) ≠ JsNum.posInf) :
    (mergeProductData rs n).rating = firstTruthy (rs.map (·.rating)) ∧
    (mergeResults results pn).rating = specBestRating (results.map (·.rating)) := by
  refine ⟨mergeProductData_rating rs n, ?_⟩
  show bestRating (results.map (·.rating)) = _
  apply bestRating_eq_specBestRating
  intro s hs
  obtain ⟨r, hr, rfl⟩ := List.mem_map.mp hs
  exact hfin r hr

theorem C1_rating_selection_witness :
    (mergeProductData [{ rating := "4.1/5" }, { rating := "4.7/5" }] "P").rating =
      firstTruthy ["4.1/5", "4.7/5"] ∧
    (mergeResults [{ rating := "4.5/5 (x)" }, { rating := "4.5/5 (y)" }] "P").rating =
      specBestRating ["4.5/5 (x)", "4.5/5 (y)"] ∧
    (mergeResults [{ rating := "4.5/5 (x)" }, { rating := "4.5/5 (y)" }] "P").rating =
      "4.5/5 (x)" ∧
    (mergeResults [{ rating := "4.1/5" }, { rating := "4.7/5" }] "P").rating =
      "4.7/5" := by
  refine ⟨?_, ?_, ?_, ?_⟩
  · exact (C1_rating_selection [{ rating := "4.1/5" }, { rating := "4.7/5" }] "P"
      [] "P" (by decide)).1
  · exact (C1_rating_selection [] "P"
      [{ rating := "4.5/5 (x)" }, { rating := "4.5/5 (y)" }] "P" (by decide)).2
  · decide
  · decide

theorem foldl_scrapeStep_spec (name : String) (ss : List StrategyOutcome) :
    ∀ (accR : List ProductRecord) (accL : List LogEvent),
      ss.foldl (scrapeStep name) (accR, accL) =
        (accR ++ successRecords ss, accL ++ strategyLogs name ss) := by
  induction ss with
  | nil => intro accR accL; simp [successRecords, strategyLogs]
  | cons s ss ih =>
    intro accR accL
    rw [List.foldl_cons]
    cases ho : s.outcome with
    | ok d =>
      rw [show scrapeStep name (accR, accL) s =
          (accR ++ [d], accL ++
            [LogEvent.info ("Starting intelligent " ++ s.strategyName ++ " for " ++ name),
             LogEvent.info ("Intelligent " ++ s.strategyName ++ " completed for " ++ name)])
        from by simp [scrapeStep, ho]]
      rw [ih]
      unfold successRecords strategyLogs
      rw [List.filterMap_cons, List.flatMap_cons]
      simp [ho]
    | error msg =>
      rw [show scrapeStep name (accR, accL) s =
          (accR, accL ++
            [LogEvent.info ("Starting intelligent " ++ s.strategyName ++ " for " ++ name),
             LogEvent.warn ("Scraper " ++ s.strategyName ++ " had issues, but provided fallback data")])
        from by simp [scrapeStep, ho]]
      rw [ih]
      unfold successRecords strategyLogs
      rw [List.filterMap_cons, List.flatMap_cons]
      simp [ho]

theorem scrapeFallback_record (name : String) (strategies : List StrategyOutcome)
    (r1 r2 : ℚ) :
    (scrapeProductDataWithFallback name strategies r1 r2).1 =
      mergeProductData
        (if successRecords strategies = [] then [createIntelligentFallback name r1 r2]
         else successRecords strategies) name := by
  unfold scrapeProductDataWithFallback
  rw [foldl_scrapeStep_spec name strategies [] []]
  by_cases h : successRecords strategies = []
  · simp [h]
  · simp [h]

theorem scrapeFallback_logs (name : String) (strategies : List StrategyOutcome)
    (r1 r2 : ℚ) :
    (scrapeProductDataWithFallback name strategies r1 r2).2 =
      strategyLogs name strategies ++
        (if successRecords strategies = [] then
          [LogEvent.info ("Creating intelligent fallback data for " ++ name)]
         else []) := by
  unfold scrapeProductDataWithFallback
  rw [foldl_scrapeStep_spec name strategies [] []]
  by_cases h : successRecords strategies = []
  · simp [h]
  · simp [h]

theorem countWarn_append (a b : List LogEvent) :
    countWarn (a ++ b) = countWarn a + countWarn b := by
  unfold countWarn
  rw [List.filter_append, List.length_append]

theorem strategyLogs_cons (name : String) (s : StrategyOutcome)
    (ss : List StrategyOutcome) :
    strategyLogs name (s :: ss) =
      (match s.outcome with
       | Except.ok _ =>
           [LogEvent.info ("Starting intelligent " ++ s.strategyName ++ " for " ++ name),
            LogEvent.info ("Intelligent " ++ s.strategyName ++ " completed for " ++ name)]
       | Except.error _ =>
           [LogEvent.info ("Starting intelligent " ++ s.strategyName ++ " for " ++ name),
            LogEvent.warn ("Scraper " ++ s.strategyName ++ " had issues, but provided fallback data")])
        ++ strategyLogs name ss := by
  unfold strategyLogs
  rw [List.flatMap_cons]

theorem countWarn_strategyLogs (name : String) (ss : List StrategyOutcome) :
    countWarn (strategyLogs name ss) =
      (ss.filter (fun s => isErrorOutcome s.outcome)).length := by
  induction ss with
  | nil => rfl
  | cons s ss ih =>
    rw [strategyLogs_cons, countWarn_append, ih, List.filter_cons]
    cases ho : s.outcome with
    | ok d => simp [countWarn, isErrorOutcome]
    | error m => simp [countWarn, isErrorOutcome, Nat.add_comm]

theorem warn_mem_strategyLogs (name : String) (ss : List StrategyOutcome)
    (s : StrategyOutcome) (hs : s ∈ ss) (he : isErrorOutcome s.outcome = true) :
    LogEvent.warn ("Scraper " ++ s.strategyName ++ " had issues, but provided fallback data")
      ∈ strategyLogs name ss := by
  unfold strategyLogs
  rw [List.mem_flatMap]
  refine ⟨s, hs, ?_⟩
  cases ho : s.outcome with
  | ok d => rw [ho] at he; simp [isErrorOutcome] at he
  | error m => simp

theorem C2_failures_absorbed (name : String) (strategies : List StrategyOutcome)
    (r1 r2 : ℚ) :
    (scrapeProductDataWithFallback name strategies r1 r2).1 =
      mergeProductData
        (if successRecords strategies = [] then [createIntelligentFallback name r1 r2]
         else successRecords strategies) name ∧
    countWarn (scrapeProductDataWithFallback name strategies r1 r2).2 =
      (strategies.filter (fun s => isErrorOutcome s.outcome)).length ∧
    ∀ s ∈ strategies, isErrorOutcome s.outcome = true →
      LogEvent.warn ("Scraper " ++ s.strategyName ++ " had issues, but provided fallback data")
        ∈ (scrapeProductDataWithFallback name strategies r1 r2).2 := by
  refine ⟨scrapeFallback_record name strategies r1 r2, ?_, ?_⟩
  · rw [scrapeFallback_logs, countWarn_append, countWarn_strategyLogs]
    by_cases h : successRecords strategies = []
    · simp [h, countWarn]
    · simp [h, countWarn]
  · intro s hs he
    rw [scrapeFallback_logs, List.mem_append]
    exact Or.inl (warn_mem_strategyLogs name strategies s hs he)

theorem C2_failures_absorbed_witness :
    (scrapeProductDataWithFallback "Widget"
        [⟨"RealPlaywrightScraper", Except.error "browser launch failed"⟩] 0 0).1 =
      mergeProductData [createIntelligentFallback "Widget" 0 0] "Widget" ∧
    countWarn (scrapeProductDataWithFallback "Widget"
        [⟨"RealPlaywrightScraper", Except.error "browser launch failed"⟩] 0 0).2 = 1 ∧
    LogEvent.warn "Scraper RealPlaywrightScraper had issues, but provided fallback data"
      ∈ (scrapeProductDataWithFallback "Widget"
        [⟨"RealPlaywrightScraper", Except.error "browser launch failed"⟩] 0 0).2 := by
  obtain ⟨h1, h2, h3⟩ := C2_failures_absorbed "Widget"
    [⟨"RealPlaywrightScraper", Except.error "browser launch failed"⟩] 0 0
  exact ⟨h1, h2, h3 ⟨"RealPlaywrightScraper", Except.error "browser launch failed"⟩
    (List.mem_cons_self _ _) rfl⟩

theorem C3_counterexample :
    postValidate "   " "Widget" true ["playwright"] =
      PostOutcome.proceed [ScraperKind.playwright] ∧
    playwrightScrapeProduct "   " [] = Except.error "Product name is required" ∧
    (scrapeProductDataWithFallback "   "
        [⟨"PlaywrightScraper", playwrightScrapeProduct "   " []⟩] 0 0).1 =
      mergeProductData [createIntelligentFallback "   " 0 0] "   " ∧
    (scrapeProductDataWithFallback "   "
        [⟨"PlaywrightScraper", playwrightScrapeProduct "   " []⟩] 0 0).1.name = "   " := by
  refine ⟨by decide, by decide, by decide, by decide⟩

theorem C3_validation (p1 p2 : String) (key : Bool) (methods : List String) :
    ((p1 = "" ∨ p2 = "") → postValidate p1 p2 key methods = PostOutcome.missingNames) ∧
    (p1 ≠ "" → p2 ≠ "" → key = true → selectScrapers methods = [] →
      postValidate p1 p2 key methods = PostOutcome.noMethods) := by
  constructor
  · intro h
    rcases h with h | h <;> simp [postValidate, h]
  · intro h1 h2 hk hsel
    simp [postValidate, h1, h2, hk, hsel]

theorem C3_validation_witness :
    postValidate "" "Widget" true ["playwright"] = PostOutcome.missingNames ∧
    postValidate "Widget" "Gadget" true [] = PostOutcome.noMethods := by
  constructor
  · exact (C3_validation "" "Widget" true ["playwright"]).1 (Or.inl rfl)
  · exact (C3_validation "Widget" "Gadget" true []).2 (by decide) (by decide) rfl (by decide)

theorem strAppend_ne_empty (a b : String) (hb : b ≠ "") : a ++ b ≠ "" := by
  intro h
  apply hb
  have hd := congrArg String.data h
  rw [String.data_append] at hd
  have h0 : ("" : String).data = [] := rfl
  rw [h0] at hd
  have hbnil : b.data = [] := (List.append_eq_nil.mp hd).2
  cases b with
  | mk l =>
    rw [show ("" : String) = String.mk [] from rfl]
    exact congrArg String.mk hbnil

theorem toFixed1_wellFormed (q : ℚ) (h1 : 7/2 ≤ q) (h2 : q < 5) :
    ratingWellFormed (toFixed1 q ++ "/5 (estimated)") = true := by
  obtain ⟨n, hn⟩ : ∃ n : ℤ, Int.floor (q * 10 + 1/2) = n := ⟨_, rfl⟩
  have hlo : (35:ℤ) ≤ n := by
    rw [← hn, Int.le_floor]
    push_cast
    linarith
  have hhi : n ≤ 50 := by
    have hstrict : n < 51 := by
      rw [← hn, Int.floor_lt]
      push_cast
      linarith
    omega
  rw [show toFixed1 q = toString (Int.floor (q * 10 + 1/2) / 10) ++ "." ++
      toString (Int.floor (q * 10 + 1/2) % 10) from rfl, hn]
  interval_cases n <;> decide

theorem firstTruthy_cases (xs : List String) :
    firstTruthy xs = "" ∨ (firstTruthy xs ∈ xs ∧ firstTruthy xs ≠ "") := by
  induction xs with
  | nil => exact Or.inl rfl
  | cons x xs ih =>
    rw [show firstTruthy (x :: xs) = if x ≠ "" then x else firstTruthy xs from rfl]
    by_cases hx : x = ""
    · rw [if_neg (not_not_intro hx)]
      rcases ih with h | ⟨h1, h2⟩
      · exact Or.inl h
      · exact Or.inr ⟨List.mem_cons_of_mem x h1, h2⟩
    · rw [if_pos hx]
      exact Or.inr ⟨List.mem_cons_self x xs, hx⟩

theorem C5_counterexample :
    (scrapeProductDataWithFallback "Widget"
        [⟨"RealPlaywrightScraper", Except.error "browser launch failed"⟩] 0 0).1.rating =
      "Rating varies" ∧
    ratingWellFormed "Rating varies" = false ∧
    "Rating varies" ≠ "" := by
  refine ⟨by decide, by decide, by decide⟩

theorem C5_returned_rating_shape (name : String) (strategies : List StrategyOutcome)
    (r1 r2 : ℚ)
    (hok : ∀ d ∈ successRecords strategies,
      d.rating = "" ∨ ratingWellFormed d.rating = true)
    (hr2a : 0 ≤ r2) (hr2b : r2 < 1) :
    (scrapeProductDataWithFallback name strategies r1 r2).1.name = name ∧
    ((scrapeProductDataWithFallback name strategies r1 r2).1.rating = "" ∨
     ratingWellFormed (scrapeProductDataWithFallback name strategies r1 r2).1.rating = true ∨
     (scrapeProductDataWithFallback name strategies r1 r2).1.rating = "Rating varies") := by
  rw [scrapeFallback_record]
  constructor
  · exact mergeProductData_name _ _
  · rw [mergeProductData_rating]
    by_cases hempty : successRecords strategies = []
    · rw [if_pos hempty]
      by_cases hphone : isPhoneName name
      · right; left
        rw [show ([createIntelligentFallback name r1 r2].map (·.rating)) =
            [(createIntelligentFallback name r1 r2).rating] from rfl]
        rw [show (createIntelligentFallback name r1 r2).rating =
            toFixed1 (r2 * (3/2) + 7/2) ++ "/5 (estimated)" from by
          unfold createIntelligentFallback
          rw [if_pos hphone]]
        have hne : toFixed1 (r2 * (3/2) + 7/2) ++ "/5 (estimated)" ≠ "" :=
          strAppend_ne_empty _ _ (by decide)
        rw [show firstTruthy [toFixed1 (r2 * (3/2) + 7/2) ++ "/5 (estimated)"] =
            toFixed1 (r2 * (3/2) + 7/2) ++ "/5 (estimated)" from by
          simp [firstTruthy, hne]]
        exact toFixed1_wellFormed _ (by linarith) (by linarith)
      · right; right
        rw [show ([createIntelligentFallback name r1 r2].map (·.rating)) =
            [(createIntelligentFallback name r1 r2).rating] from rfl]
        rw [show (createIntelligentFallback name r1 r2).rating = "Rating varies" from by
          unfold createIntelligentFallback
          rw [if_neg hphone]]
        decide
    · rw [if_neg hempty]
      rcases firstTruthy_cases ((successRecords strategies).map (·.rating)) with h | ⟨h1, h2⟩
      · exact Or.inl h
      · obtain ⟨d, hd, hde⟩ := List.mem_map.mp h1
        rcases hok d hd with hr | hr
        · rw [hde] at hr
          exact absurd hr h2
        · right; left
          rw [← hde]
          exact hr

theorem C5_returned_rating_shape_witness :
    (scrapeProductDataWithFallback "iPhone 15"
        [⟨"RealPlaywrightScraper", Except.error "browser launch failed"⟩] 0 0).1.name =
      "iPhone 15" ∧
    ((scrapeProductDataWithFallback "iPhone 15"
        [⟨"RealPlaywrightScraper", Except.error "browser launch failed"⟩] 0 0).1.rating = "" ∨
     ratingWellFormed (scrapeProductDataWithFallback "iPhone 15"
        [⟨"RealPlaywrightScraper", Except.error "browser launch failed"⟩] 0 0).1.rating = true ∨
     (scrapeProductDataWithFallback "iPhone 15"
        [⟨"RealPlaywrightScraper", Except.error "browser launch failed"⟩] 0 0).1.rating =
       "Rating varies") :=
  C5_returned_rating_shape "iPhone 15"
    [⟨"RealPlaywrightScraper", Except.error "browser launch failed"⟩] 0 0
    (by decide) (le_refl 0) (by norm_num)

theorem listGetD_set_ne {α : Type} (d : α) :
    ∀ (l : List α) (n m : ℕ), n ≠ m → ∀ v, (l.set n v).getD m d = l.getD m d := by
  intro l
  induction l with
  | nil => intro n m _ v; rfl
  | cons x l ih =>
    intro n m hnm v
    cases n with
    | zero =>
      cases m with
      | zero => exact absurd rfl hnm
      | succ m => rfl
    | succ n =>
      cases m with
      | zero => rfl
      | succ m =>
        rw [show ((x :: l).set (n + 1) v) = x :: l.set n v from rfl]
        rw [List.getD_cons_succ, List.getD_cons_succ]
        exact ih n m (by omega) v

theorem listGetD_append_left {α : Type} (d : α) :
    ∀ (l l' : List α) (n : ℕ), n < l.length → (l ++ l').getD n d = l.getD n d := by
  intro l
  induction l with
  | nil => intro l' n hn; simp at hn
  | cons x l ih =>
    intro l' n hn
    cases n with
    | zero => rfl
    | succ n =>
      rw [List.cons_append, List.getD_cons_succ, List.getD_cons_succ]
      exact ih l' n (by simpa using hn)

theorem listGetD_append_self {α : Type} (d : α) :
    ∀ (l : List α) (x : α), (l ++ [x]).getD l.length d = x := by
  intro l
  induction l with
  | nil => intro x; rfl
  | cons y l ih =>
    intro x
    show (y :: (l ++ [x])).getD (l.length + 1) d = x
    simp only [List.getD_cons_succ]
    exact ih x

theorem C10_getLogs_fresh_copy (lg : MaximLogger) (h : LogHeap)
    (hvalid : lg.logsRef < h.cells.length) (v : List LogEntry) (lvl : LogLevel) :
    (lg.getLogs h).2 ≠ lg.logsRef ∧
    readCell (lg.getLogs h).1 (lg.getLogs h).2 = readCell h lg.logsRef ∧
    readCell (writeCell (lg.getLogs h).1 (lg.getLogs h).2 v) lg.logsRef =
      readCell h lg.logsRef ∧
    readCell
        (lg.getLogs (writeCell (lg.getLogs h).1 (lg.getLogs h).2 v)).1
        (lg.getLogs (writeCell (lg.getLogs h).1 (lg.getLogs h).2 v)).2 =
      readCell h lg.logsRef ∧
    lg.getLogsByLevel (writeCell (lg.getLogs h).1 (lg.getLogs h).2 v) lvl =
      lg.getLogsByLevel h lvl ∧
    lg.getLogsSummary (writeCell (lg.getLogs h).1 (lg.getLogs h).2 v) =
      lg.getLogsSummary h := by
  have hne : (lg.getLogs h).2 ≠ lg.logsRef := by
    show h.cells.length ≠ lg.logsRef
    omega
  have hread : readCell (writeCell (lg.getLogs h).1 (lg.getLogs h).2 v) lg.logsRef =
      readCell h lg.logsRef := by
    show ((h.cells ++ [readCell h lg.logsRef]).set h.cells.length v).getD lg.logsRef [] =
      h.cells.getD lg.logsRef []
    rw [listGetD_set_ne [] _ h.cells.length lg.logsRef (by omega) v,
        listGetD_append_left [] h.cells _ lg.logsRef hvalid]
  refine ⟨hne, ?_, hread, ?_, ?_, ?_⟩
  · show (h.cells ++ [readCell h lg.logsRef]).getD h.cells.length [] =
      readCell h lg.logsRef
    exact listGetD_append_self [] h.cells _
  · show ((writeCell (lg.getLogs h).1 (lg.getLogs h).2 v).cells ++
        [readCell (writeCell (lg.getLogs h).1 (lg.getLogs h).2 v) lg.logsRef]).getD
        (writeCell (lg.getLogs h).1 (lg.getLogs h).2 v).cells.length [] =
      readCell h lg.logsRef
    rw [listGetD_append_self []]
    exact hread
  · unfold MaximLogger.getLogsByLevel
    rw [hread]
  · unfold MaximLogger.getLogsSummary
    rw [hread]

theorem C10_getLogs_fresh_copy_witness :
    ((MaximLogger.mk "ProductComparisonAgent" 0).getLogs
        (LogHeap.mk [[LogEntry.mk "t0" LogLevel.info "started" "ProductComparisonAgent"]])).2 ≠ 0 ∧
    readCell ((MaximLogger.mk "ProductComparisonAgent" 0).getLogs
        (LogHeap.mk [[LogEntry.mk "t0" LogLevel.info "started" "ProductComparisonAgent"]])).1
      ((MaximLogger.mk "ProductComparisonAgent" 0).getLogs
        (LogHeap.mk [[LogEntry.mk "t0" LogLevel.info "started" "ProductComparisonAgent"]])).2 =
      readCell (LogHeap.mk [[LogEntry.mk "t0" LogLevel.info "started" "ProductComparisonAgent"]]) 0 ∧
    readCell (writeCell ((MaximLogger.mk "ProductComparisonAgent" 0).getLogs
        (LogHeap.mk [[LogEntry.mk "t0" LogLevel.info "started" "ProductComparisonAgent"]])).1
        ((MaximLogger.mk "ProductComparisonAgent" 0).getLogs
        (LogHeap.mk [[LogEntry.mk "t0" LogLevel.info "started" "ProductComparisonAgent"]])).2 []) 0 =
      readCell (LogHeap.mk [[LogEntry.mk "t0" LogLevel.info "started" "ProductComparisonAgent"]]) 0 ∧
    readCell
        ((MaximLogger.mk "ProductComparisonAgent" 0).getLogs
          (writeCell ((MaximLogger.mk "ProductComparisonAgent" 0).getLogs
            (LogHeap.mk [[LogEntry.mk "t0" LogLevel.info "started" "ProductComparisonAgent"]])).1
            ((MaximLogger.mk "ProductComparisonAgent" 0).getLogs
            (LogHeap.mk [[LogEntry.mk "t0" LogLevel.info "started" "ProductComparisonAgent"]])).2 [])).1
        ((MaximLogger.mk "ProductComparisonAgent" 0).getLogs
          (writeCell ((MaximLogger.mk "ProductComparisonAgent" 0).getLogs
            (LogHeap.mk [[LogEntry.mk "t0" LogLevel.info "started" "ProductComparisonAgent"]])).1
            ((MaximLogger.mk "ProductComparisonAgent" 0).getLogs
            (LogHeap.mk [[LogEntry.mk "t0" LogLevel.info "started" "ProductComparisonAgent"]])).2 [])).2 =
      readCell (LogHeap.mk [[LogEntry.mk "t0" LogLevel.info "started" "ProductComparisonAgent"]]) 0 ∧
    (MaximLogger.mk "ProductComparisonAgent" 0).getLogsByLevel
        (writeCell ((MaximLogger.mk "ProductComparisonAgent" 0).getLogs
          (LogHeap.mk [[LogEntry.mk "t0" LogLevel.info "started" "ProductComparisonAgent"]])).1
          ((MaximLogger.mk "ProductComparisonAgent" 0).getLogs
          (LogHeap.mk [[LogEntry.mk "t0" LogLevel.info "started" "ProductComparisonAgent"]])).2 [])
        LogLevel.info =
      (MaximLogger.mk "ProductComparisonAgent" 0).getLogsByLevel
        (LogHeap.mk [[LogEntry.mk "t0" LogLevel.info "started" "ProductComparisonAgent"]])
        LogLevel.info ∧
    (MaximLogger.mk "ProductComparisonAgent" 0).getLogsSummary
        (writeCell ((MaximLogger.mk "ProductComparisonAgent" 0).getLogs
          (LogHeap.mk [[LogEntry.mk "t0" LogLevel.info "started" "ProductComparisonAgent"]])).1
          ((MaximLogger.mk "ProductComparisonAgent" 0).getLogs
          (LogHeap.mk [[LogEntry.mk "t0" LogLevel.info "started" "ProductComparisonAgent"]])).2 []) =
      (MaximLogger.mk "ProductComparisonAgent" 0).getLogsSummary
        (LogHeap.mk [[LogEntry.mk "t0" LogLevel.info "started" "ProductComparisonAgent"]]) :=
  C10_getLogs_fresh_copy (MaximLogger.mk "ProductComparisonAgent" 0)
    (LogHeap.mk [[LogEntry.mk "t0" LogLevel.info "started" "ProductComparisonAgent"]])
    (by decide) [] LogLevel.info
